import Mathlib

/-!
Verification development for the A2A relay backend: the task/artifact
reconciler (`POST /host/task_update`), the WebSocket fan-out broadcaster,
the host gateway (`registerAgent`, `createConversation`,
`sendMessageToHost`), and the `POST /message/send` ingress handler.

The JavaScript source is embedded shallowly: the in-memory DuckDB tables
become lists of row structures, `CURRENT_TIMESTAMP` becomes an explicit
clock parameter `now : Nat`, `generateUUID()` becomes an explicit supply of
fresh identifiers, and the platform JSON codec (`JSON.parse` /
`JSON.stringify`) is modelled by a small executable codec over
integer-numeric JSON values (every payload appearing in the properties
under study is built from null, booleans, integers, strings, arrays and
objects).
-/

set_option maxHeartbeats 1000000

/-- JSON values as manipulated by the backend. Numbers are restricted to
integers: no payload in the reconciler, broadcaster or gateway properties
uses fractional numbers. -/
inductive Json where
  | null
  | bool (b : Bool)
  | num (n : Int)
  | str (s : String)
  | arr (elems : List Json)
  | obj (fields : List (String × Json))
deriving Repr

/-- Decidable equality for `Json` (nested inductive, so written by hand). -/
def Json.beq : Json → Json → Bool
  | .null, .null => true
  | .bool a, .bool b => a == b
  | .num a, .num b => a == b
  | .str a, .str b => a == b
  | .arr xs, .arr ys => beqList xs ys
  | .obj xs, .obj ys => beqFields xs ys
  | _, _ => false
where
  beqList : List Json → List Json → Bool
    | [], [] => true
    | x :: xs, y :: ys => beq x y && beqList xs ys
    | _, _ => false
  beqFields : List (String × Json) → List (String × Json) → Bool
    | [], [] => true
    | (k, x) :: xs, (l, y) :: ys => k == l && beq x y && beqFields xs ys
    | _, _ => false

instance : BEq Json := ⟨Json.beq⟩

/-- JavaScript truthiness on our JSON fragment: `null`, `false`, `0` and
the empty string are falsy. (`NaN` cannot arise: numbers are integers.) -/
def Json.jsFalsy : Json → Bool
  | .null => true
  | .bool b => !b
  | .num n => n == 0
  | .str s => s == ""
  | _ => false

/-- Escape a string body the way `JSON.stringify` does for the characters
ever produced here (double quote and backslash; the payloads under study
contain no control characters). -/
def jsonEscape (s : String) : String :=
  String.mk (s.data.flatMap (fun c =>
    if c == '"' then ['\\', '"']
    else if c == '\\' then ['\\', '\\']
    else [c]))

mutual

/-- Model of `JSON.stringify`: canonical serialization, no whitespace,
object fields in insertion order. -/
def Json.stringify : Json → String
  | .null => "null"
  | .bool true => "true"
  | .bool false => "false"
  | .num n => toString n
  | .str s => "\"" ++ jsonEscape s ++ "\""
  | .arr xs => "[" ++ stringifyElems xs ++ "]"
  | .obj fs => "\x7b" ++ stringifyFields fs ++ "\x7d"

def Json.stringifyElems : List Json → String
  | [] => ""
  | [x] => x.stringify
  | x :: y :: rest => x.stringify ++ "," ++ stringifyElems (y :: rest)

def Json.stringifyFields : List (String × Json) → String
  | [] => ""
  | [(k, v)] => "\"" ++ jsonEscape k ++ "\":" ++ v.stringify
  | (k, v) :: f :: rest =>
      "\"" ++ jsonEscape k ++ "\":" ++ v.stringify ++ "," ++ stringifyFields (f :: rest)

end

/-- Whitespace skipped by the JSON grammar. -/
def jsonWs (c : Char) : Bool :=
  c == ' ' || c == '\n' || c == '\t' || c == '\r'

/-- Drop leading JSON whitespace. -/
def skipWs : List Char → List Char
  | [] => []
  | c :: cs => if jsonWs c then skipWs cs else c :: cs

/-- Parse a run of decimal digits, returning the accumulated value. -/
def parseDigits : Nat → List Char → Option (Nat × List Char)
  | acc, c :: cs =>
    if c.isDigit then parseDigits (acc * 10 + (c.toNat - '0'.toNat)) cs
    else some (acc, c :: cs)
  | acc, [] => some (acc, [])

/-- Parse the body of a string literal after the opening quote, handling
the `\"`, `\\`, `\/`, `\n`, `\t`, `\r` escapes. -/
def parseStringBody : List Char → List Char → Option (String × List Char)
  | _, [] => none
  | acc, c :: cs =>
    if c == '"' then some (String.mk acc.reverse, cs)
    else if c == '\\' then
      match cs with
      | [] => none
      | e :: cs' =>
        if e == '"' then parseStringBody ('"' :: acc) cs'
        else if e == '\\' then parseStringBody ('\\' :: acc) cs'
        else if e == '/' then parseStringBody ('/' :: acc) cs'
        else if e == 'n' then parseStringBody ('\n' :: acc) cs'
        else if e == 't' then parseStringBody ('\t' :: acc) cs'
        else if e == 'r' then parseStringBody ('\r' :: acc) cs'
        else none
    else parseStringBody (c :: acc) cs

/-- Check that the input starts with the given literal word. -/
def takeLiteral : List Char → List Char → Option (List Char)
  | [], cs => some cs
  | l :: ls, c :: cs => if c == l then takeLiteral ls cs else none
  | _ :: _, [] => none

mutual

/-- Model of `JSON.parse` (recursive descent, fuelled for termination):
parse one JSON value, returning it with the unconsumed remainder. -/
def parseVal : Nat → List Char → Option (Json × List Char)
  | 0, _ => none
  | _ + 1, [] => none
  | fuel + 1, c :: cs =>
    if c == 'n' then (takeLiteral ['u', 'l', 'l'] cs).map (fun r => (.null, r))
    else if c == 't' then (takeLiteral ['r', 'u', 'e'] cs).map (fun r => (.bool true, r))
    else if c == 'f' then (takeLiteral ['a', 'l', 's', 'e'] cs).map (fun r => (.bool false, r))
    else if c == '"' then (parseStringBody [] cs).map (fun p => (.str p.1, p.2))
    else if c == '-' then
      match cs with
      | d :: cs' =>
        if d.isDigit then
          (parseDigits (d.toNat - '0'.toNat) cs').map (fun p => (.num (-(p.1 : Int)), p.2))
        else none
      | [] => none
    else if c.isDigit then
      (parseDigits (c.toNat - '0'.toNat) cs).map (fun p => (.num (p.1 : Int), p.2))
    else if c == '[' then
      match skipWs cs with
      | ']' :: rest => some (.arr [], rest)
      | cs' => (parseElems fuel cs').map (fun p => (.arr p.1, p.2))
    else if c == '\x7b' then
      match skipWs cs with
      | '\x7d' :: rest => some (.obj [], rest)
      | cs' => (parseFields fuel cs').map (fun p => (.obj p.1, p.2))
    else none

/-- Parse a nonempty comma-separated list of array elements and the
closing bracket. -/
def parseElems : Nat → List Char → Option (List Json × List Char)
  | 0, _ => none
  | fuel + 1, cs =>
    match parseVal fuel (skipWs cs) with
    | none => none
    | some (v, rest) =>
      match skipWs rest with
      | ',' :: rest' => (parseElems fuel rest').map (fun p => (v :: p.1, p.2))
      | ']' :: rest' => some ([v], rest')
      | _ => none

/-- Parse a nonempty comma-separated list of object fields and the
closing brace. -/
def parseFields : Nat → List Char → Option (List (String × Json) × List Char)
  | 0, _ => none
  | fuel + 1, cs =>
    match skipWs cs with
    | '"' :: cs' =>
      match parseStringBody [] cs' with
      | none => none
      | some (k, rest) =>
        match skipWs rest with
        | ':' :: rest' =>
          match parseVal fuel (skipWs rest') with
          | none => none
          | some (v, rest'') =>
            match skipWs rest'' with
            | ',' :: rest3 => (parseFields fuel rest3).map (fun p => ((k, v) :: p.1, p.2))
            | '\x7d' :: rest3 => some ([(k, v)], rest3)
            | _ => none
        | _ => none
    | _ => none

end

/-- Model of `JSON.parse`: a whole input is one JSON value surrounded by
whitespace; anything else fails (in JavaScript, throws a `SyntaxError`,
which the callers under study always catch). -/
def Json.parse (s : String) : Option Json :=
  match parseVal (s.length + 1) (skipWs s.data) with
  | some (v, rest) => if skipWs rest == [] then some v else none
  | none => none

/-- Property lookup `j[k]` as used by the JavaScript `hostResponse.error`
check: defined on objects, `undefined` (here `none`) elsewhere. -/
def Json.getProp (j : Json) (k : String) : Option Json :=
  match j with
  | .obj fs => (fs.find? (fun f => f.1 == k)).map Prod.snd
  | _ => none

example : Json.parse "[1, 2]" = some (.arr [.num 1, .num 2]) := rfl
example : Json.parse "hello" = none := rfl
example : (Json.arr [.num 1, .num 2]).stringify = "[1,2]" := rfl
example : Json.parse "\x7b\"a\": -3\x7d" = some (.obj [("a", .num (-3))]) := rfl

/-! ## Durable store model

The DuckDB tables used by the reconciler (`database.js`), as lists of row
structures in insertion order. `CURRENT_TIMESTAMP` is the explicit clock
parameter `now`; `ORDER BY created_at ASC` is a stable sort on
`created_at`. -/

/-- A row of the `tasks` table: `id TEXT PRIMARY KEY, conversation_id,
status, state_details, created_at, updated_at`. -/
structure TaskRow where
  id : String
  conversation_id : String
  status : String
  state_details : Option String
  created_at : Nat
  updated_at : Nat
deriving Repr, DecidableEq

/-- A row of the `task_artifacts` table: `id TEXT PRIMARY KEY, task_id,
artifact_id_ref, content, created_at`. The only key is the primary key
`id`; there is no uniqueness constraint on `(task_id, artifact_id_ref)`. -/
structure ArtifactRow where
  id : String
  task_id : String
  artifact_id_ref : String
  content : String
  created_at : Nat
deriving Repr, DecidableEq

/-- A row of the `messages` table: `id TEXT PRIMARY KEY, conversation_id,
task_id, role, content, created_at`. -/
structure MessageRow where
  id : String
  conversation_id : String
  task_id : Option String
  role : String
  content : String
  created_at : Nat
deriving Repr, DecidableEq

/-- The slice of the store the claims touch. -/
structure Store where
  tasks : List TaskRow
  task_artifacts : List ArtifactRow
  messages : List MessageRow
deriving Repr, DecidableEq

/-- `INSERT OR REPLACE INTO task_artifacts`: DuckDB resolves the conflict
on the table's primary key (`id`); on a conflict the row is replaced in
place, otherwise it is a plain insert. -/
def insertOrReplaceArtifact (row : ArtifactRow) (tbl : List ArtifactRow) : List ArtifactRow :=
  if tbl.any (fun r => r.id == row.id) then
    tbl.map (fun r => if r.id == row.id then row else r)
  else
    tbl ++ [row]

/-! ## Canonical snapshot hydration (`getTaskWithArtifacts`) -/

/-- The placeholder substituted when a stored `state_details` payload
fails to parse. -/
def stateDetailsErrorPlaceholder : Json :=
  .obj [("error", .str "Could not parse state_details.")]

/-- The placeholder substituted when a stored artifact `content` payload
fails to parse. -/
def artifactContentErrorPlaceholder : Json :=
  .arr [.obj [("type", .str "error"), ("text", .str "Error: Could not parse artifact content.")]]

/-- `task.state_details ? JSON.parse(task.state_details) : null`, with the
`catch` substituting the placeholder. A missing or empty stored string is
falsy in JavaScript and yields `null`. -/
def hydrateStateDetails : Option String → Json
  | none => .null
  | some s =>
    if s == "" then .null
    else
      match Json.parse s with
      | some j => j
      | none => stateDetailsErrorPlaceholder

/-- `JSON.parse(art.content)` with the `catch` substituting the
placeholder. -/
def hydrateArtifactContent (s : String) : Json :=
  match Json.parse s with
  | some j => j
  | none => artifactContentErrorPlaceholder

/-- A hydrated artifact as embedded in the canonical task snapshot. -/
structure ArtifactView where
  id : String
  task_id : String
  artifact_id_ref : String
  content : Json
  created_at : Nat
deriving Repr

/-- The canonical task snapshot (`getTaskWithArtifacts` output): task
fields with decoded `state_details`, plus all artifacts for the task
ordered by `created_at` ascending, each with decoded content. -/
structure TaskView where
  id : String
  conversation_id : String
  status : String
  state_details : Json
  created_at : Nat
  updated_at : Nat
  artifacts : List ArtifactView
deriving Repr

/-- Hydrate one artifact row. -/
def hydrateArtifact (a : ArtifactRow) : ArtifactView :=
  { id := a.id, task_id := a.task_id, artifact_id_ref := a.artifact_id_ref,
    content := hydrateArtifactContent a.content, created_at := a.created_at }

/-- `getTaskWithArtifacts(db, taskId)`: select the task row, hydrate
`state_details`, select the task's artifacts ordered by `created_at`
ascending and hydrate each. Returns `none` only when no task row exists. -/
def getTaskWithArtifacts (st : Store) (taskId : String) : Option TaskView :=
  match st.tasks.find? (fun t => t.id == taskId) with
  | none => none
  | some t =>
    let rows := (st.task_artifacts.filter (fun a => a.task_id == taskId)).mergeSort
      (fun a b => decide (a.created_at ≤ b.created_at))
    some { id := t.id, conversation_id := t.conversation_id, status := t.status,
           state_details := hydrateStateDetails t.state_details,
           created_at := t.created_at, updated_at := t.updated_at,
           artifacts := rows.map hydrateArtifact }

/-! ## Task reconciler (`POST /host/task_update`) -/

/-- One entry of the inbound `artifacts` array. Destructured JavaScript
properties are `Option`s; absent is `none`. -/
structure ArtifactInput where
  artifactId : Option String
  content : Option Json

/-- The inbound task-update event
`{ id, contextId, status, state_details?, artifacts? }`. `artifacts` is
`some` exactly when `Array.isArray(artifacts)` holds. -/
structure TaskUpdateEvent where
  id : Option String
  contextId : Option String
  status : Option String
  state_details : Option Json
  artifacts : Option (List ArtifactInput)

/-- JavaScript falsiness of a destructured string property: absent
(`undefined`) or the empty string. -/
def optStrFalsy : Option String → Bool
  | none => true
  | some s => s == ""

/-- JavaScript falsiness of a destructured JSON property. -/
def optJsonFalsy : Option Json → Bool
  | none => true
  | some j => j.jsFalsy

/-- `JSON.stringify(state_details || status)`: a falsy `state_details`
falls back to the (string) `status`. -/
def stateDetailsString (stateDetails : Option Json) (status : String) : String :=
  match stateDetails with
  | some j => if j.jsFalsy then Json.stringify (.str status) else Json.stringify j
  | none => Json.stringify (.str status)

/-- Outcome of the `/host/task_update` handler: HTTP 400 with a message,
or HTTP 200 `{ status: "received", taskId }`. -/
inductive ReconcileResult where
  | badRequest (message : String)
  | received (taskId : String)
deriving Repr, DecidableEq

/-- The events the handler hands to the broadcaster, recorded
structurally. -/
inductive BEvent where
  | taskUpdated (data : TaskView)
  | newMessage (data : MessageRow) (content : Json)
deriving Repr

/-- Is an inbound artifact entry well formed? The code skips an entry
when `!artifact.artifactId || !artifact.content`. -/
def validArtifactInput (a : ArtifactInput) : Bool :=
  !(optStrFalsy a.artifactId || optJsonFalsy a.content)

/-- The artifact upsert loop: for each well-formed entry, draw a fresh id
from the supply `ids` and `INSERT OR REPLACE` a row; malformed entries are
skipped with a warning. The `ids` supply models the per-iteration
`generateUUID()` calls; when it is exhausted (unreachable under the
supply-length hypotheses used below) the loop stops. -/
def insertArtifacts (now : Nat) (taskId : String) :
    List String → List ArtifactInput → List ArtifactRow → List ArtifactRow
  | _, [], tbl => tbl
  | ids, a :: rest, tbl =>
    if validArtifactInput a then
      match ids with
      | [] => tbl
      | id :: ids' =>
        insertArtifacts now taskId ids' rest (insertOrReplaceArtifact
          { id := id, task_id := taskId, artifact_id_ref := a.artifactId.getD "",
            content := Json.stringify (a.content.getD .null), created_at := now } tbl)
    else
      insertArtifacts now taskId ids rest tbl

/-- The task upsert: `UPDATE` every row matching the id if one exists,
else `INSERT` a new row with `created_at = updated_at = now`. -/
def upsertTask (now : Nat) (taskId conversationId status sdString : String)
    (tasks : List TaskRow) : List TaskRow :=
  if tasks.any (fun t => t.id == taskId) then
    tasks.map (fun t =>
      if t.id == taskId then
        { t with conversation_id := conversationId, status := status,
                 state_details := some sdString, updated_at := now }
      else t)
  else
    tasks ++ [{ id := taskId, conversation_id := conversationId, status := status,
                state_details := some sdString, created_at := now, updated_at := now }]

/-- The `/host/task_update` handler: validate the three mandatory fields,
upsert the task row, run the artifact loop, then hydrate the canonical
snapshot and hand it to the broadcaster as a `task_updated` event.
Returns the HTTP result, the new store, and the broadcast events. -/
def reconcile (ids : List String) (now : Nat) (ev : TaskUpdateEvent) (st : Store) :
    ReconcileResult × Store × List BEvent :=
  if optStrFalsy ev.id || optStrFalsy ev.contextId || optStrFalsy ev.status then
    (.badRequest "Missing required fields: id (taskId), contextId (conversation_id), status.",
     st, [])
  else
    let taskId := ev.id.getD ""
    let conversationId := ev.contextId.getD ""
    let status := ev.status.getD ""
    let sdString := stateDetailsString ev.state_details status
    let st1 : Store := { st with tasks := upsertTask now taskId conversationId status sdString st.tasks }
    let st2 : Store :=
      match ev.artifacts with
      | none => st1
      | some arts => { st1 with task_artifacts := insertArtifacts now taskId ids arts st1.task_artifacts }
    let events :=
      match getTaskWithArtifacts st2 taskId with
      | some v => [BEvent.taskUpdated v]
      | none => []
    (.received taskId, st2, events)

/-- The rows of the `tasks` table holding a given task id. -/
def tasksWithId (st : Store) (taskId : String) : List TaskRow :=
  st.tasks.filter (fun t => t.id == taskId)

/-- The rows of the `task_artifacts` table holding a given
`(task_id, artifact_id_ref)` pair. -/
def artifactsWithRef (st : Store) (taskId ref : String) : List ArtifactRow :=
  st.task_artifacts.filter (fun a => a.task_id == taskId && a.artifact_id_ref == ref)

/-- The empty store. -/
def Store.empty : Store := { tasks := [], task_artifacts := [], messages := [] }

/-! ## Fan-out broadcaster (WebSocket layer) -/

/-- The `ws` ready-state constant checked by `broadcast`. -/
def WebSocketOPEN : Nat := 1

/-- A connected WebSocket client handle: its identity and its
`readyState`. -/
structure Client where
  id : Nat
  readyState : Nat
deriving Repr, DecidableEq

/-- `broadcast(data)`: serialize the event once, then send the one
serialized string to every client in the set whose channel is open.
Returns the delivery list `(client id, payload)` in iteration order. -/
def broadcast (data : Json) (clients : List Client) : List (Nat × String) :=
  let jsonData := Json.stringify data
  clients.filterMap (fun c =>
    if c.readyState == WebSocketOPEN then some (c.id, jsonData) else none)

/-- The `close` handler: `clients.delete(ws)`. Client identity is the
`id` field. -/
def handleClose (ws : Client) (clients : List Client) : List Client :=
  clients.filter (fun c => !(c.id == ws.id))

/-- The `error` handler: also `clients.delete(ws)`. -/
def handleError (ws : Client) (clients : List Client) : List Client :=
  clients.filter (fun c => !(c.id == ws.id))

/-- The error reply sent to a client whose inbound message fails to
parse. -/
def invalidMessageReply : String :=
  Json.stringify (.obj [("type", .str "error"), ("message", .str "Invalid message format.")])

/-- The `message` handler: parse the inbound payload as JSON and
re-broadcast the parsed value to all clients (the sender included);
on a parse failure, send an error reply to the sender only. -/
def onMessage (clients : List Client) (sender : Client) (raw : String) : List (Nat × String) :=
  match Json.parse raw with
  | some v => broadcast v clients
  | none => [(sender.id, invalidMessageReply)]

/-! ## Host gateway (`host_connector.js`) -/

/-- What the environment did with one outbound `fetch`: a rejected
promise (network/transport failure, carrying the error message and
stack), or an HTTP response with status, status text and raw body. -/
inductive FetchOutcome where
  | netError (message : String) (stack : String)
  | response (status : Nat) (statusText : String) (body : String)
deriving Repr, DecidableEq

/-- `response.ok`: status in the 200..299 range. -/
def responseOk (status : Nat) : Bool :=
  200 ≤ status && status ≤ 299

/-- The tagged result every gateway call returns: either the error object
`{ error: true, status?, message, details? }` or the decoded JSON body.
No outcome is raised: the caller inspects the tag. -/
inductive HostResult where
  | failure (status : Option Nat) (message : String) (details : Option String)
  | success (data : Json)
deriving Repr

/-- Stand-in for the engine-specific `SyntaxError` message produced when
`response.json()` rejects on a non-JSON success body; the surrounding
`catch` turns it into a failure result. -/
def jsonRejectMessage : String := "Unexpected token in JSON"

/-- Stand-in for the stack of that engine-specific error. -/
def jsonRejectStack : String := "SyntaxError"

/-- The shared outcome analysis of the three gateway calls: guard on
fetch availability, return a failure result on a rejected fetch, a
failure carrying the status code and the raw body on a non-ok response,
and the decoded JSON body on an ok response. `msgPrefix` is the
call-specific message text. -/
def hostCallResult (msgPrefix : String) (fetchAvailable : Bool) (outcome : FetchOutcome) :
    HostResult :=
  if !fetchAvailable then .failure none "Fetch client not available." none
  else
    match outcome with
    | .netError m stk => .failure none m (some stk)
    | .response status statusText body =>
      if !responseOk status then
        .failure (some status) (msgPrefix ++ statusText) (some body)
      else
        match Json.parse body with
        | some d => .success d
        | none => .failure none jsonRejectMessage (some jsonRejectStack)

/-- `registerAgent(agentUrl)` outcome analysis. -/
def registerAgentResult (fetchAvailable : Bool) (outcome : FetchOutcome) : HostResult :=
  hostCallResult "Failed to register agent: " fetchAvailable outcome

/-- `createConversation()` outcome analysis. -/
def createConversationResult (fetchAvailable : Bool) (outcome : FetchOutcome) : HostResult :=
  hostCallResult "Failed to create conversation: " fetchAvailable outcome

/-- `sendMessageToHost(messageData)` outcome analysis. -/
def sendMessageToHostResult (fetchAvailable : Bool) (outcome : FetchOutcome) : HostResult :=
  hostCallResult "Failed to send message: " fetchAvailable outcome

/-- The request each gateway call builds: target URL, the `X-API-Key`
header holding the current key, and the JSON body when one is sent. -/
structure HostRequest where
  url : String
  apiKeyHeader : String
  body : Option String
deriving Repr, DecidableEq

/-- The request built by `registerAgent`. -/
def registerAgentRequest (baseUrl apiKey agentUrl : String) : HostRequest :=
  { url := baseUrl ++ "/register_agent_service", apiKeyHeader := apiKey,
    body := some (Json.stringify (.obj [("agent_url", .str agentUrl)])) }

/-- The request built by `createConversation` (no body). -/
def createConversationRequest (baseUrl apiKey : String) : HostRequest :=
  { url := baseUrl ++ "/create_conversation_service", apiKeyHeader := apiKey, body := none }

/-! ## `POST /message/send` ingress handler -/

/-- The request body `{ conversation_id, role, content, task_id? }`.
`contentIsArray` records the `Array.isArray(content)` test. -/
structure MessageSendRequest where
  conversation_id : Option String
  role : Option String
  content : Option Json
  task_id : Option String

/-- `Array.isArray(content)` on our JSON fragment. -/
def optJsonIsArray : Option Json → Bool
  | some (.arr _) => true
  | _ => false

/-- Outcome of the `/message/send` handler, carrying the HTTP status. -/
inductive SendResult where
  | badRequest (status : Nat) (message : String)
  | hostFailure (status : Nat) (message : String)
  | created (status : Nat) (messageId : String)
deriving Repr, DecidableEq

/-- The JavaScript `hostResponse.error` truthiness check: a failure
result has `error: true`; a success result is the decoded body, whose own
`error` property (if any) is tested for truthiness. -/
def hostResultHasError : HostResult → Bool
  | .failure _ _ _ => true
  | .success d =>
    match d.getProp "error" with
    | none => false
    | some v => !v.jsFalsy

/-- The `/message/send` handler: validate the body, relay to the host via
`sendMessageToHost` (the fetch outcome is the environment input), and
only when the relay result carries no error insert the message row and
broadcast a `new_message` event. `msgId` models the `generateUUID()`
call; `now` the `new Date()` timestamp. -/
def messageSend (msgId : String) (now : Nat) (fetchAvailable : Bool)
    (outcome : FetchOutcome) (req : MessageSendRequest) (st : Store) :
    SendResult × Store × List BEvent :=
  if optStrFalsy req.conversation_id || optStrFalsy req.role ||
      optJsonFalsy req.content || !optJsonIsArray req.content then
    (.badRequest 400 "Missing required fields: conversation_id, role, and content (must be an array).",
     st, [])
  else if !(req.role == some "user" || req.role == some "agent") then
    (.badRequest 400 "Role must be user or agent.", st, [])
  else
    let hostResponse := sendMessageToHostResult fetchAvailable outcome
    if hostResultHasError hostResponse then
      (.hostFailure 500 "Failed to send message to host", st, [])
    else
      let content := req.content.getD .null
      let row : MessageRow :=
        { id := msgId, conversation_id := req.conversation_id.getD "",
          task_id := req.task_id, role := req.role.getD "",
          content := Json.stringify content, created_at := now }
      (.created 201 msgId,
       { st with messages := st.messages ++ [row] },
       [BEvent.newMessage row content])

/-! ## Shared definitions and lemmas for the reconciler claims -/

/-- The top-level validation the handler performs: all three mandatory
fields present and truthy. -/
def wellFormedEvent (ev : TaskUpdateEvent) : Bool :=
  !(optStrFalsy ev.id || optStrFalsy ev.contextId || optStrFalsy ev.status)

/-- The row update performed by
`UPDATE tasks SET conversation_id = ?, status = ?, state_details = ?, updated_at = CURRENT_TIMESTAMP`. -/
def updateTaskRow (now : Nat) (cid status sd : String) (t : TaskRow) : TaskRow :=
  { t with conversation_id := cid, status := status, state_details := some sd, updated_at := now }

/-- The row inserted by `INSERT INTO tasks ... VALUES (?, ?, ?, ?,
CURRENT_TIMESTAMP, CURRENT_TIMESTAMP)`. -/
def newTaskRow (now : Nat) (tid cid status sd : String) : TaskRow :=
  { id := tid, conversation_id := cid, status := status, state_details := some sd,
    created_at := now, updated_at := now }

theorem upsertTask_eq (now : Nat) (tid cid status sd : String) (ts : List TaskRow) :
    upsertTask now tid cid status sd ts =
      if ts.any (fun t => t.id == tid) then
        ts.map (fun t => if t.id == tid then updateTaskRow now cid status sd t else t)
      else ts ++ [newTaskRow now tid cid status sd] := by
  simp [upsertTask, updateTaskRow, newTaskRow]

theorem filter_update_map (now : Nat) (tid cid status sd : String) (ts : List TaskRow) :
    (ts.map (fun t => if t.id == tid then updateTaskRow now cid status sd t else t)).filter
        (fun t => t.id == tid) =
      (ts.filter (fun t => t.id == tid)).map (updateTaskRow now cid status sd) := by
  rw [List.filter_map]
  have h1 : ts.filter ((fun t => t.id == tid) ∘
      (fun t => if t.id == tid then updateTaskRow now cid status sd t else t)) =
      ts.filter (fun t => t.id == tid) := by
    apply List.filter_congr
    intro a _
    by_cases ha : a.id = tid
    · simp [ha, updateTaskRow]
    · simp [ha]
  rw [h1]
  apply List.map_congr_left
  intro a ha
  have h2 : (a.id == tid) = true := (List.mem_filter.mp ha).2
  simp [h2]

theorem upsertTask_filter_eq (now : Nat) (tid cid status sd : String) (ts : List TaskRow) :
    (upsertTask now tid cid status sd ts).filter (fun t => t.id == tid) =
      if ts.any (fun t => t.id == tid) then
        (ts.filter (fun t => t.id == tid)).map (updateTaskRow now cid status sd)
      else [newTaskRow now tid cid status sd] := by
  rw [upsertTask_eq]
  split_ifs with h
  · exact filter_update_map now tid cid status sd ts
  · rw [List.filter_append]
    have h1 : ts.filter (fun t => t.id == tid) = [] := by
      rw [List.filter_eq_nil_iff]
      intro a ha hpa
      exact h (List.any_eq_true.mpr ⟨a, ha, hpa⟩)
    rw [h1]
    simp [newTaskRow]

theorem upsertTask_count_one (now : Nat) (tid cid status sd : String) (ts : List TaskRow)
    (hcount : (ts.filter (fun t => t.id == tid)).length ≤ 1) :
    ((upsertTask now tid cid status sd ts).filter (fun t => t.id == tid)).length = 1 ∧
    ∀ t ∈ (upsertTask now tid cid status sd ts).filter (fun t => t.id == tid),
      t.updated_at = now := by
  rw [upsertTask_filter_eq]
  split_ifs with h
  · refine ⟨?_, ?_⟩
    · rw [List.length_map]
      rcases List.any_eq_true.mp h with ⟨a, ha, hpa⟩
      have : a ∈ ts.filter (fun t => t.id == tid) := List.mem_filter.mpr ⟨ha, hpa⟩
      have h1 : 0 < (ts.filter (fun t => t.id == tid)).length := List.length_pos_of_mem this
      omega
    · intro t ht
      rcases List.mem_map.mp ht with ⟨x, _, rfl⟩
      rfl
  · simp [newTaskRow]

theorem upsertTask_any (now : Nat) (tid cid status sd : String) (ts : List TaskRow) :
    (upsertTask now tid cid status sd ts).any (fun t => t.id == tid) = true := by
  rw [upsertTask_eq]
  split_ifs with h
  · rcases List.any_eq_true.mp h with ⟨a, ha, hpa⟩
    refine List.any_eq_true.mpr ⟨_, List.mem_map_of_mem _ ha, ?_⟩
    rw [if_pos hpa]
    simpa [updateTaskRow] using hpa
  · refine List.any_eq_true.mpr ⟨newTaskRow now tid cid status sd, ?_, by simp [newTaskRow]⟩
    exact List.mem_append_right _ (by simp)

theorem reconcile_wf_components (ids : List String) (now : Nat) (ev : TaskUpdateEvent)
    (st : Store) (hwf : wellFormedEvent ev = true) :
    (reconcile ids now ev st).1 = .received (ev.id.getD "") ∧
    (reconcile ids now ev st).2.1.tasks =
      upsertTask now (ev.id.getD "") (ev.contextId.getD "") (ev.status.getD "")
        (stateDetailsString ev.state_details (ev.status.getD "")) st.tasks ∧
    (reconcile ids now ev st).2.1.task_artifacts =
      (match ev.artifacts with
       | none => st.task_artifacts
       | some arts => insertArtifacts now (ev.id.getD "") ids arts st.task_artifacts) ∧
    (reconcile ids now ev st).2.2 =
      (match getTaskWithArtifacts (reconcile ids now ev st).2.1 (ev.id.getD "") with
       | some v => [BEvent.taskUpdated v]
       | none => []) := by
  have hcond : (optStrFalsy ev.id || optStrFalsy ev.contextId || optStrFalsy ev.status) = false := by
    simpa [wellFormedEvent] using hwf
  cases harts : ev.artifacts <;>
    simp [reconcile, hcond, harts]

/-! ## Claim theorems -/

/-- C4: an inbound task-update event missing any of the three mandatory
fields (`id`, `contextId`, `status`) is rejected with the HTTP 400
missing-fields message, mutates no store state, and broadcasts nothing. -/
theorem reconcile_missing_field_rejected (ids : List String) (now : Nat)
    (ev : TaskUpdateEvent) (st : Store)
    (h : ev.id = none ∨ ev.contextId = none ∨ ev.status = none) :
    (reconcile ids now ev st).1 =
      .badRequest "Missing required fields: id (taskId), contextId (conversation_id), status." ∧
    (reconcile ids now ev st).2.1 = st ∧
    (reconcile ids now ev st).2.2 = [] := by
  have hcond : (optStrFalsy ev.id || optStrFalsy ev.contextId || optStrFalsy ev.status) = true := by
    rcases h with h | h | h <;> simp [optStrFalsy, h]
  simp [reconcile, hcond]

/-- Witness for C4 at a concrete event with `id` absent. -/
theorem reconcile_missing_field_rejected_witness :
    (reconcile [] 0 ⟨none, some "c1", some "working", none, none⟩ Store.empty).1 =
      .badRequest "Missing required fields: id (taskId), contextId (conversation_id), status." ∧
    (reconcile [] 0 ⟨none, some "c1", some "working", none, none⟩ Store.empty).2.1 = Store.empty ∧
    (reconcile [] 0 ⟨none, some "c1", some "working", none, none⟩ Store.empty).2.2 = [] :=
  reconcile_missing_field_rejected [] 0 ⟨none, some "c1", some "working", none, none⟩
    Store.empty (Or.inl rfl)

/-- C2: reconciling the same well-formed event twice leaves exactly one
task row for its task id (the second call updates in place), and the
row's `updated_at` after the second call is at least its value after the
first (the clock parameter being monotone across the two calls). -/
theorem reconcile_idempotent_upsert (ids1 ids2 : List String) (now1 now2 : Nat)
    (ev : TaskUpdateEvent) (st : Store)
    (hwf : wellFormedEvent ev = true)
    (hcount : (tasksWithId st (ev.id.getD "")).length ≤ 1)
    (hclock : now1 ≤ now2) :
    (tasksWithId (reconcile ids2 now2 ev (reconcile ids1 now1 ev st).2.1).2.1
        (ev.id.getD "")).length = 1 ∧
    ∀ t ∈ tasksWithId (reconcile ids2 now2 ev (reconcile ids1 now1 ev st).2.1).2.1
        (ev.id.getD ""),
      t.updated_at = now2 ∧
      ∀ t' ∈ tasksWithId (reconcile ids1 now1 ev st).2.1 (ev.id.getD ""),
        t'.updated_at ≤ t.updated_at := by
  obtain ⟨-, ht1, -, -⟩ := reconcile_wf_components ids1 now1 ev st hwf
  obtain ⟨-, ht2, -, -⟩ :=
    reconcile_wf_components ids2 now2 ev (reconcile ids1 now1 ev st).2.1 hwf
  simp only [tasksWithId] at hcount ⊢
  rw [ht1] at ht2 ⊢
  have h1 := upsertTask_count_one now1 (ev.id.getD "") (ev.contextId.getD "")
    (ev.status.getD "") (stateDetailsString ev.state_details (ev.status.getD ""))
    st.tasks hcount
  rw [ht2]
  have h2 := upsertTask_count_one now2 (ev.id.getD "") (ev.contextId.getD "")
    (ev.status.getD "") (stateDetailsString ev.state_details (ev.status.getD ""))
    (upsertTask now1 (ev.id.getD "") (ev.contextId.getD "") (ev.status.getD "")
      (stateDetailsString ev.state_details (ev.status.getD "")) st.tasks)
    (by rw [h1.1])
  refine ⟨h2.1, ?_⟩
  intro t ht
  refine ⟨h2.2 t ht, ?_⟩
  intro t' ht'
  rw [h1.2 t' ht', h2.2 t ht]
  exact hclock

/-- Witness for C2 at a concrete event reconciled twice on the empty
store. -/
theorem reconcile_idempotent_upsert_witness :
    (tasksWithId (reconcile [] 1 ⟨some "t1", some "c1", some "working", none, none⟩
        ((reconcile [] 0 ⟨some "t1", some "c1", some "working", none, none⟩
          Store.empty).2.1)).2.1 "t1").length = 1 := by
  have h := reconcile_idempotent_upsert [] [] 0 1
    ⟨some "t1", some "c1", some "working", none, none⟩ Store.empty
    (by decide) (by decide) (by decide)
  exact h.1

/-- C3 counterexample: two reconciliations of a task at the same clock
instant leave `updated_at` equal, not strictly greater: the code stamps
`CURRENT_TIMESTAMP`, so the claimed strictness fails for reconciliations
occurring at the same instant. -/
theorem reconcile_updated_at_not_strict :
    ((tasksWithId ((reconcile [] 5 ⟨some "t1", some "c1", some "working", none, none⟩
        Store.empty).2.1) "t1").map TaskRow.updated_at = [5]) ∧
    ((tasksWithId ((reconcile [] 5 ⟨some "t1", some "c1", some "working", none, none⟩
        ((reconcile [] 5 ⟨some "t1", some "c1", some "working", none, none⟩
          Store.empty).2.1)).2.1) "t1").map TaskRow.updated_at = [5]) ∧
    ¬ ((5 : Nat) > 5) := by
  refine ⟨by decide, by decide, by decide⟩

/-- C3 amended: across two successive reconciliations of the same task,
`updated_at` equals the clock of the later reconciliation, hence is
nondecreasing, and strictly increases exactly when the clock strictly
advanced between the two calls. -/
theorem reconcile_updated_at_monotone (ids1 ids2 : List String) (now1 now2 : Nat)
    (ev1 ev2 : TaskUpdateEvent) (st : Store)
    (hwf1 : wellFormedEvent ev1 = true) (hwf2 : wellFormedEvent ev2 = true)
    (hsame : ev2.id = ev1.id)
    (hcount : (tasksWithId st (ev1.id.getD "")).length ≤ 1)
    (hclock : now1 < now2) :
    ∀ t ∈ tasksWithId (reconcile ids2 now2 ev2 (reconcile ids1 now1 ev1 st).2.1).2.1
        (ev1.id.getD ""),
      ∀ t' ∈ tasksWithId (reconcile ids1 now1 ev1 st).2.1 (ev1.id.getD ""),
        t'.updated_at < t.updated_at := by
  obtain ⟨-, ht1, -, -⟩ := reconcile_wf_components ids1 now1 ev1 st hwf1
  obtain ⟨-, ht2, -, -⟩ :=
    reconcile_wf_components ids2 now2 ev2 (reconcile ids1 now1 ev1 st).2.1 hwf2
  simp only [tasksWithId] at hcount ⊢
  rw [hsame] at ht2
  rw [ht1] at ht2 ⊢
  have h1 := upsertTask_count_one now1 (ev1.id.getD "") (ev1.contextId.getD "")
    (ev1.status.getD "") (stateDetailsString ev1.state_details (ev1.status.getD ""))
    st.tasks hcount
  rw [ht2]
  have h2 := upsertTask_count_one now2 (ev1.id.getD "") (ev2.contextId.getD "")
    (ev2.status.getD "") (stateDetailsString ev2.state_details (ev2.status.getD ""))
    (upsertTask now1 (ev1.id.getD "") (ev1.contextId.getD "") (ev1.status.getD "")
      (stateDetailsString ev1.state_details (ev1.status.getD "")) st.tasks)
    (by rw [h1.1])
  intro t ht t' ht'
  rw [h1.2 t' ht', h2.2 t ht]
  exact hclock

/-- Witness for the amended C3 at two concrete reconciliations with an
advancing clock (3 then 7): the concrete task row after the first call
has `updated_at = 3`, the one after the second has `updated_at = 7`. -/
theorem reconcile_updated_at_monotone_witness :
    TaskRow.updated_at ⟨"t1", "c1", "working", some "\"working\"", 3, 3⟩ <
      TaskRow.updated_at ⟨"t1", "c2", "done", some "\"done\"", 3, 7⟩ :=
  reconcile_updated_at_monotone [] [] 3 7
    ⟨some "t1", some "c1", some "working", none, none⟩
    ⟨some "t1", some "c2", some "done", none, none⟩ Store.empty
    (by decide) (by decide) rfl (by decide) (by decide)
    ⟨"t1", "c2", "done", some "\"done\"", 3, 7⟩ (by decide)
    ⟨"t1", "c1", "working", some "\"working\"", 3, 3⟩ (by decide)

/-- C1 (code evaluation at the failing input): reconciling two events for
task `t1` carrying artifact ref `r1` with contents `"A"` then `"B"`
leaves TWO stored rows for `(t1, r1)` — the `INSERT OR REPLACE` resolves
on the primary key `id`, which is a fresh UUID on every insert, so the
replace branch is unreachable and rows accumulate instead of the claimed
last-write-wins replacement. -/
theorem reconcile_artifact_rows_accumulate :
    (artifactsWithRef
      ((reconcile ["b0"] 2 ⟨some "t1", some "c1", some "working", none,
          some [⟨some "r1", some (.str "B")⟩]⟩
        ((reconcile ["a0"] 1 ⟨some "t1", some "c1", some "working", none,
            some [⟨some "r1", some (.str "A")⟩]⟩ Store.empty).2.1)).2.1)
      "t1" "r1").map ArtifactRow.content = ["\"A\"", "\"B\""] := by
  decide

/-- `broadcast` over a set of all-open clients delivers the one
serialized payload to every client in order. -/
theorem broadcast_eq_map (e : Json) (cs : List Client)
    (hopen : ∀ c ∈ cs, c.readyState = WebSocketOPEN) :
    broadcast e cs = cs.map (fun c => (c.id, Json.stringify e)) := by
  induction cs with
  | nil => rfl
  | cons a as ih =>
    have ha : (a.readyState == WebSocketOPEN) = true := by
      simp [hopen a (by simp)]
    have ih' := ih (fun c hc => hopen c (by simp [hc]))
    simp only [broadcast] at ih' ⊢
    rw [List.filterMap_cons, if_pos ha, ih']
    rfl

/-- C6: with N all-open subscribers, a publish serializes the event once
and delivers it to each subscriber exactly once; after one subscriber
disconnects (its close or error handler removes it from the set), the next
publish delivers only to the N−1 survivors, each still exactly once, the
removed subscriber receiving nothing. -/
theorem broadcast_fanout_delivery (e e2 : Json) (clients : List Client) (d : Client)
    (hnodup : (clients.map Client.id).Nodup)
    (hopen : ∀ c ∈ clients, c.readyState = WebSocketOPEN) :
    broadcast e clients = clients.map (fun c => (c.id, Json.stringify e)) ∧
    (∀ c ∈ clients, ((broadcast e clients).filter (fun p => p.1 == c.id)).length = 1) ∧
    broadcast e2 (handleClose d clients) =
      (handleClose d clients).map (fun c => (c.id, Json.stringify e2)) ∧
    (∀ p ∈ broadcast e2 (handleClose d clients), p.1 ≠ d.id) ∧
    (∀ c ∈ clients, c.id ≠ d.id →
      (c.id, Json.stringify e2) ∈ broadcast e2 (handleClose d clients)) := by
  have hsubl : List.Sublist (handleClose d clients) clients := List.filter_sublist _
  have hopen' : ∀ c ∈ handleClose d clients, c.readyState = WebSocketOPEN :=
    fun c hc => hopen c (hsubl.mem hc)
  have heq := broadcast_eq_map e clients hopen
  have heq2 := broadcast_eq_map e2 (handleClose d clients) hopen'
  refine ⟨heq, ?_, heq2, ?_, ?_⟩
  · intro c hc
    rw [heq, List.filter_map]
    have hfe : clients.filter ((fun p => p.1 == c.id) ∘ (fun x => (x.id, Json.stringify e))) =
        clients.filter (fun x => x.id == c.id) := rfl
    rw [hfe, List.length_map]
    have hmem : c.id ∈ clients.map Client.id := List.mem_map_of_mem _ hc
    have hcnt := List.count_eq_one_of_mem hnodup hmem
    calc (clients.filter (fun x => x.id == c.id)).length
        = clients.countP (fun x => x.id == c.id) :=
          (List.countP_eq_length_filter _ _).symm
      _ = (clients.map Client.id).countP (fun y => y == c.id) := by
            rw [List.countP_map]
            rfl
      _ = (clients.map Client.id).count c.id := rfl
      _ = 1 := hcnt
  · intro p hp
    rw [heq2] at hp
    rcases List.mem_map.mp hp with ⟨c, hc, rfl⟩
    have := (List.mem_filter.mp hc).2
    simpa using this
  · intro c hc hne
    rw [heq2]
    refine List.mem_map.mpr ⟨c, ?_, rfl⟩
    exact List.mem_filter.mpr ⟨hc, by simpa using hne⟩

/-- Witness for C6: two open subscribers, then subscriber 1 disconnects;
the next publish reaches only subscriber 0. -/
theorem broadcast_fanout_delivery_witness :
    broadcast (.str "E") [⟨0, 1⟩, ⟨1, 1⟩] =
      ([⟨0, 1⟩, ⟨1, 1⟩] : List Client).map (fun c => (c.id, Json.stringify (.str "E"))) ∧
    (∀ p ∈ broadcast (.str "E2") (handleClose ⟨1, 1⟩ [⟨0, 1⟩, ⟨1, 1⟩]), p.1 ≠ 1) ∧
    (0, Json.stringify (.str "E2")) ∈ broadcast (.str "E2") (handleClose ⟨1, 1⟩ [⟨0, 1⟩, ⟨1, 1⟩]) := by
  have h := broadcast_fanout_delivery (.str "E") (.str "E2") [⟨0, 1⟩, ⟨1, 1⟩] ⟨1, 1⟩
    (by decide) (by decide)
  exact ⟨h.1, h.2.2.2.1, h.2.2.2.2 ⟨0, 1⟩ (by decide) (by decide)⟩

/-- C7 counterexample: the inbound WebSocket payload `"[1, 2]"` is
re-broadcast as `"[1,2]"` — the handler parses the payload and
re-serializes it, so the delivered bytes differ from the inbound bytes,
refuting byte-for-byte verbatim relay. -/
theorem onMessage_not_byte_identical :
    onMessage [⟨0, 1⟩] ⟨0, 1⟩ "[1, 2]" = [(0, "[1,2]")] ∧ "[1,2]" ≠ "[1, 2]" :=
  ⟨rfl, by decide⟩

/-- C7 amended: an inbound payload that parses as JSON is re-broadcast to
every connected subscriber, the sender included, carrying the canonical
re-serialization of the parsed value (semantically the same JSON value,
not necessarily the same bytes); a payload that fails to parse is answered
with an error reply to the sender only and is not broadcast. -/
theorem onMessage_rebroadcast (clients : List Client) (sender : Client) (raw : String) :
    (∀ v, Json.parse raw = some v →
      onMessage clients sender raw = broadcast v clients ∧
      (∀ p ∈ onMessage clients sender raw, p.2 = Json.stringify v) ∧
      (sender ∈ clients → sender.readyState = WebSocketOPEN →
        (sender.id, Json.stringify v) ∈ onMessage clients sender raw)) ∧
    (Json.parse raw = none →
      onMessage clients sender raw = [(sender.id, invalidMessageReply)]) := by
  constructor
  · intro v hv
    have h1 : onMessage clients sender raw = broadcast v clients := by
      simp [onMessage, hv]
    refine ⟨h1, ?_, ?_⟩
    · intro p hp
      rw [h1] at hp
      simp only [broadcast, List.mem_filterMap] at hp
      rcases hp with ⟨c, -, hc⟩
      by_cases ho : (c.readyState == WebSocketOPEN) = true
      · rw [if_pos ho] at hc
        cases hc
        rfl
      · rw [if_neg ho] at hc
        cases hc
    · intro hmem hopen
      rw [h1]
      simp only [broadcast, List.mem_filterMap]
      exact ⟨sender, hmem, by simp [hopen]⟩
  · intro hv
    simp [onMessage, hv]

/-- Witness for C7 at a concrete subscriber echoing to itself, plus a
concrete unparseable payload answered with the error reply. -/
theorem onMessage_rebroadcast_witness :
    onMessage [⟨0, 1⟩] ⟨0, 1⟩ "[1]" = broadcast (.arr [.num 1]) [⟨0, 1⟩] ∧
    (0, Json.stringify (.arr [.num 1])) ∈ onMessage [⟨0, 1⟩] ⟨0, 1⟩ "[1]" ∧
    onMessage [⟨0, 1⟩] ⟨0, 1⟩ "nope" = [(0, invalidMessageReply)] := by
  have h1 := (onMessage_rebroadcast [⟨0, 1⟩] ⟨0, 1⟩ "[1]").1 (.arr [.num 1]) rfl
  have h2 := (onMessage_rebroadcast [⟨0, 1⟩] ⟨0, 1⟩ "nope").2 rfl
  exact ⟨h1.1, h1.2.2 (by decide) rfl, h2⟩

/-- C8: each of the three gateway calls returns all three outcomes as a
tagged result value (the embedding is a total function into `HostResult`,
so no outcome is raised): a transport failure yields a failure result
carrying the error message, a non-success HTTP status yields a failure
result carrying that numeric status and the raw response body verbatim,
and a success status with a JSON body yields the decoded body. -/
theorem host_gateway_tagged (status : Nat) (statusText body m stk : String) :
    (registerAgentResult true (.netError m stk) = .failure none m (some stk) ∧
     createConversationResult true (.netError m stk) = .failure none m (some stk) ∧
     sendMessageToHostResult true (.netError m stk) = .failure none m (some stk)) ∧
    (responseOk status = false →
      (registerAgentResult true (.response status statusText body) =
         .failure (some status) ("Failed to register agent: " ++ statusText) (some body) ∧
       createConversationResult true (.response status statusText body) =
         .failure (some status) ("Failed to create conversation: " ++ statusText) (some body) ∧
       sendMessageToHostResult true (.response status statusText body) =
         .failure (some status) ("Failed to send message: " ++ statusText) (some body))) ∧
    (∀ v, responseOk status = true → Json.parse body = some v →
      (registerAgentResult true (.response status statusText body) = .success v ∧
       createConversationResult true (.response status statusText body) = .success v ∧
       sendMessageToHostResult true (.response status statusText body) = .success v)) := by
  refine ⟨⟨rfl, rfl, rfl⟩, ?_, ?_⟩
  · intro h
    simp [registerAgentResult, createConversationResult, sendMessageToHostResult,
      hostCallResult, h]
  · intro v h hp
    simp [registerAgentResult, createConversationResult, sendMessageToHostResult,
      hostCallResult, h, hp]

/-- Witness for C8: an HTTP 500 with body `"boom"` maps to a failure
result carrying status 500 and that raw body; a rejected fetch maps to a
failure result carrying the error message; an HTTP 200 with a JSON body
maps to the decoded body. -/
theorem host_gateway_tagged_witness :
    registerAgentResult true (.response 500 "Internal Server Error" "boom") =
      .failure (some 500) "Failed to register agent: Internal Server Error" (some "boom") ∧
    sendMessageToHostResult true (.netError "fetch failed" "at fetch") =
      .failure none "fetch failed" (some "at fetch") ∧
    createConversationResult true (.response 200 "OK" "\x7b\"name\": \"conv\"\x7d") =
      .success (.obj [("name", .str "conv")]) := by
  have h := host_gateway_tagged 500 "Internal Server Error" "boom" "fetch failed" "at fetch"
  have h200 := host_gateway_tagged 200 "OK" "\x7b\"name\": \"conv\"\x7d" "m" "s"
  exact ⟨(h.2.1 (by decide)).1, h.1.2.2,
    (h200.2.2 (.obj [("name", .str "conv")]) (by decide) rfl).2.1⟩

/-- The `/message/send` body validation: required fields present, content
an array, role one of `user`/`agent`. -/
def wellFormedSendRequest (req : MessageSendRequest) : Bool :=
  !(optStrFalsy req.conversation_id || optStrFalsy req.role ||
    optJsonFalsy req.content || !optJsonIsArray req.content) &&
  (req.role == some "user" || req.role == some "agent")

/-- C10: for a well-formed `/message/send` request, when the host relay
result carries an error the handler answers HTTP 500 and leaves the store
untouched with nothing broadcast; when the relay carries no error the
message row is appended and the handler answers HTTP 201 — persistence
happens only after a successful relay. -/
theorem messageSend_persists_only_after_host (msgId : String) (now : Nat)
    (fetchAvailable : Bool) (outcome : FetchOutcome) (req : MessageSendRequest) (st : Store)
    (hwf : wellFormedSendRequest req = true) :
    (hostResultHasError (sendMessageToHostResult fetchAvailable outcome) = true →
      messageSend msgId now fetchAvailable outcome req st =
        (.hostFailure 500 "Failed to send message to host", st, [])) ∧
    (hostResultHasError (sendMessageToHostResult fetchAvailable outcome) = false →
      (messageSend msgId now fetchAvailable outcome req st).2.1.messages =
        st.messages ++ [⟨msgId, req.conversation_id.getD "", req.task_id, req.role.getD "",
          Json.stringify (req.content.getD .null), now⟩] ∧
      (messageSend msgId now fetchAvailable outcome req st).1 = .created 201 msgId) := by
  rw [wellFormedSendRequest, Bool.and_eq_true] at hwf
  obtain ⟨h1, h2⟩ := hwf
  have h1' : (optStrFalsy req.conversation_id || optStrFalsy req.role ||
      optJsonFalsy req.content || !optJsonIsArray req.content) = false := by
    simpa using h1
  constructor
  · intro herr
    simp [messageSend, h1', h2, herr]
  · intro herr
    constructor <;> simp [messageSend, h1', h2, herr]

/-- Witness for C10: a concrete well-formed request whose relay fails
with a transport error leaves the empty store empty and returns the 500
result. -/
theorem messageSend_persists_only_after_host_witness :
    messageSend "m1" 4 true (.netError "connect ECONNREFUSED" "stack")
      ⟨some "c1", some "user", some (.arr [.obj [("type", .str "text"), ("text", .str "hi")]]), none⟩
      Store.empty =
      (.hostFailure 500 "Failed to send message to host", Store.empty, []) := by
  have h := messageSend_persists_only_after_host "m1" 4 true
    (.netError "connect ECONNREFUSED" "stack")
    ⟨some "c1", some "user", some (.arr [.obj [("type", .str "text"), ("text", .str "hi")]]), none⟩
    Store.empty (by rfl)
  exact h.1 rfl

/-- The rows the artifact loop inserts for the well-formed entries of one
event, each paired with its fresh id drawn from the supply. -/
def mkArtifactRows (now : Nat) (taskId : String) :
    List String → List ArtifactInput → List ArtifactRow
  | _, [] => []
  | ids, a :: rest =>
    if validArtifactInput a then
      match ids with
      | [] => []
      | id :: ids' =>
        { id := id, task_id := taskId, artifact_id_ref := a.artifactId.getD "",
          content := Json.stringify (a.content.getD .null), created_at := now } ::
          mkArtifactRows now taskId ids' rest
    else mkArtifactRows now taskId ids rest

theorem insertArtifacts_eq_append (now : Nat) (taskId : String) :
    ∀ (arts : List ArtifactInput) (ids : List String) (tbl : List ArtifactRow),
    ids.Nodup → (∀ x ∈ ids, ∀ r ∈ tbl, x ≠ r.id) →
    insertArtifacts now taskId ids arts tbl = tbl ++ mkArtifactRows now taskId ids arts := by
  intro arts
  induction arts with
  | nil =>
    intro ids tbl _ _
    simp [insertArtifacts, mkArtifactRows]
  | cons a rest ih =>
    intro ids tbl hnd hfresh
    cases hv : validArtifactInput a with
    | false =>
      simp only [insertArtifacts, mkArtifactRows, hv, Bool.false_eq_true, if_false]
      exact ih ids tbl hnd hfresh
    | true =>
      cases ids with
      | nil =>
        simp [insertArtifacts, mkArtifactRows, hv]
      | cons id ids' =>
        have hfree : tbl.any (fun r => r.id == id) = false := by
          rw [List.any_eq_false]
          intro r hr
          simp only [beq_iff_eq]
          intro he
          exact hfresh id (by simp) r hr he.symm
        have hins : insertOrReplaceArtifact
            ⟨id, taskId, a.artifactId.getD "", Json.stringify (a.content.getD .null), now⟩ tbl =
            tbl ++ [⟨id, taskId, a.artifactId.getD "", Json.stringify (a.content.getD .null), now⟩] := by
          simp [insertOrReplaceArtifact, hfree]
        simp only [insertArtifacts, mkArtifactRows, hv, if_true]
        rw [hins]
        rw [ih ids' _ (List.Nodup.of_cons hnd) ?_]
        · simp
        · intro x hx r hr
          rcases List.mem_append.mp hr with hr | hr
          · exact hfresh x (by simp [hx]) r hr
          · have hrid : r.id = id := by
              rcases List.mem_singleton.mp hr with rfl
              rfl
            rw [hrid]
            intro he
            rw [he] at hx
            exact (List.nodup_cons.mp hnd).1 hx

theorem mkArtifactRows_length (now : Nat) (taskId : String) :
    ∀ (arts : List ArtifactInput) (ids : List String),
    (arts.filter validArtifactInput).length ≤ ids.length →
    (mkArtifactRows now taskId ids arts).length = (arts.filter validArtifactInput).length := by
  intro arts
  induction arts with
  | nil =>
    intro ids _
    simp [mkArtifactRows]
  | cons a rest ih =>
    intro ids hlen
    cases hv : validArtifactInput a with
    | false =>
      rw [List.filter_cons_of_neg (by simp [hv])] at hlen ⊢
      simp only [mkArtifactRows, hv, Bool.false_eq_true, if_false]
      exact ih ids hlen
    | true =>
      rw [List.filter_cons_of_pos (by simp [hv])] at hlen ⊢
      cases ids with
      | nil => simp at hlen
      | cons id ids' =>
        simp only [mkArtifactRows, hv, if_true, List.length_cons]
        rw [ih ids' (by simpa using hlen)]

theorem mkArtifactRows_mem (now : Nat) (taskId : String) :
    ∀ (arts : List ArtifactInput) (ids : List String),
    (arts.filter validArtifactInput).length ≤ ids.length →
    ∀ a ∈ arts, validArtifactInput a = true →
    ∃ r ∈ mkArtifactRows now taskId ids arts,
      r.task_id = taskId ∧ r.artifact_id_ref = a.artifactId.getD "" ∧
      r.content = Json.stringify (a.content.getD .null) := by
  intro arts
  induction arts with
  | nil =>
    intro ids _ a ha
    exact absurd ha (List.not_mem_nil a)
  | cons b rest ih =>
    intro ids hlen a ha hva
    cases hvb : validArtifactInput b with
    | false =>
      rw [List.filter_cons_of_neg (by simp [hvb])] at hlen
      simp only [mkArtifactRows, hvb, Bool.false_eq_true, if_false]
      rcases List.mem_cons.mp ha with rfl | ha'
      · rw [hva] at hvb
        cases hvb
      · exact ih ids hlen a ha' hva
    | true =>
      rw [List.filter_cons_of_pos (by simp [hvb])] at hlen
      cases ids with
      | nil => simp at hlen
      | cons id ids' =>
        simp only [mkArtifactRows, hvb, if_true]
        rcases List.mem_cons.mp ha with rfl | ha'
        · exact ⟨⟨id, taskId, a.artifactId.getD "", Json.stringify (a.content.getD .null), now⟩, by simp, rfl, rfl, rfl⟩
        · rcases ih ids' (by simpa using hlen) a ha' hva with ⟨r, hr, hprops⟩
          exact ⟨r, by simp [hr], hprops⟩

/-- C5: a well-formed event whose artifacts array mixes well-formed and
malformed entries still reconciles (no InvalidEvent): the handler stores
exactly one new row per well-formed entry — each with the event's task id,
the entry's artifact ref and its serialized content — and adds nothing for
the malformed entries it skips. -/
theorem reconcile_partial_artifact_isolation (ids : List String) (now : Nat)
    (ev : TaskUpdateEvent) (st : Store) (arts : List ArtifactInput)
    (hwf : wellFormedEvent ev = true)
    (harts : ev.artifacts = some arts)
    (hnd : ids.Nodup)
    (hfresh : ∀ x ∈ ids, ∀ r ∈ st.task_artifacts, x ≠ r.id)
    (hlen : (arts.filter validArtifactInput).length ≤ ids.length) :
    (reconcile ids now ev st).1 = .received (ev.id.getD "") ∧
    (reconcile ids now ev st).2.1.task_artifacts.length =
      st.task_artifacts.length + (arts.filter validArtifactInput).length ∧
    ∀ a ∈ arts, validArtifactInput a = true →
      ∃ r ∈ (reconcile ids now ev st).2.1.task_artifacts,
        r.task_id = ev.id.getD "" ∧ r.artifact_id_ref = a.artifactId.getD "" ∧
        r.content = Json.stringify (a.content.getD .null) := by
  obtain ⟨hres, -, hta, -⟩ := reconcile_wf_components ids now ev st hwf
  rw [harts] at hta
  simp only at hta
  rw [insertArtifacts_eq_append now (ev.id.getD "") arts ids st.task_artifacts hnd hfresh] at hta
  refine ⟨hres, ?_, ?_⟩
  · rw [hta, List.length_append, mkArtifactRows_length now (ev.id.getD "") arts ids hlen]
  · intro a ha hva
    rcases mkArtifactRows_mem now (ev.id.getD "") arts ids hlen a ha hva with ⟨r, hr, hprops⟩
    exact ⟨r, by rw [hta]; exact List.mem_append_right _ hr, hprops⟩

/-- Witness for C5: an event with one well-formed artifact and one entry
missing its content stores exactly the well-formed one and succeeds. -/
theorem reconcile_partial_artifact_isolation_witness :
    (reconcile ["u0", "u1"] 2
      ⟨some "t1", some "c1", some "working", none,
        some [⟨some "r1", some (.str "ok")⟩, ⟨some "r2", none⟩]⟩ Store.empty).1 =
      .received "t1" ∧
    (reconcile ["u0", "u1"] 2
      ⟨some "t1", some "c1", some "working", none,
        some [⟨some "r1", some (.str "ok")⟩, ⟨some "r2", none⟩]⟩ Store.empty).2.1.task_artifacts.length = 1 := by
  have h := reconcile_partial_artifact_isolation ["u0", "u1"] 2
    ⟨some "t1", some "c1", some "working", none,
      some [⟨some "r1", some (.str "ok")⟩, ⟨some "r2", none⟩]⟩ Store.empty
    [⟨some "r1", some (.str "ok")⟩, ⟨some "r2", none⟩]
    (by decide) rfl (by decide) (by decide) (by decide)
  exact ⟨h.1, h.2.1⟩

/-- Snapshot hydration is total on existing tasks: whenever a task row
with the requested id exists, `getTaskWithArtifacts` returns a snapshot —
decode failures substitute placeholders, they never fail the read. -/
theorem getTaskWithArtifacts_isSome (s : Store) (tid : String)
    (hany : s.tasks.any (fun t => t.id == tid) = true) :
    (getTaskWithArtifacts s tid).isSome = true := by
  rcases List.any_eq_true.mp hany with ⟨t, ht, hpt⟩
  have hsome : (s.tasks.find? (fun t => t.id == tid)).isSome :=
    List.find?_isSome.mpr ⟨t, ht, hpt⟩
  rcases Option.isSome_iff_exists.mp hsome with ⟨t', ht'⟩
  simp [getTaskWithArtifacts, ht']

/-- C9: when the store holds an artifact of the event's task whose stored
content fails to decode, a well-formed reconciliation still produces and
broadcasts the `task_updated` snapshot, with that artifact present and
its content replaced by the explicit decode-error placeholder; and
hydration never fails the read of an existing task
(`getTaskWithArtifacts_isSome` clause restated for all stores). -/
theorem reconcile_broadcasts_despite_decode_error (ids : List String) (now : Nat)
    (ev : TaskUpdateEvent) (st : Store) (row : ArtifactRow)
    (hwf : wellFormedEvent ev = true)
    (hnoarts : ev.artifacts = none)
    (hrow : row ∈ st.task_artifacts)
    (htask : row.task_id = ev.id.getD "")
    (hbad : Json.parse row.content = none) :
    (∃ v, (reconcile ids now ev st).2.2 = [BEvent.taskUpdated v] ∧
      ∃ a ∈ v.artifacts, a.id = row.id ∧ a.content = artifactContentErrorPlaceholder) ∧
    (∀ (s : Store) (tid : String), s.tasks.any (fun t => t.id == tid) = true →
      (getTaskWithArtifacts s tid).isSome = true) := by
  obtain ⟨-, htasks, hta, hev⟩ := reconcile_wf_components ids now ev st hwf
  rw [hnoarts] at hta
  simp only at hta
  have hany : (reconcile ids now ev st).2.1.tasks.any (fun t => t.id == ev.id.getD "") = true := by
    rw [htasks]
    exact upsertTask_any now (ev.id.getD "") (ev.contextId.getD "") (ev.status.getD "")
      (stateDetailsString ev.state_details (ev.status.getD "")) st.tasks
  have hsome := getTaskWithArtifacts_isSome (reconcile ids now ev st).2.1 (ev.id.getD "") hany
  rcases hfind : (reconcile ids now ev st).2.1.tasks.find? (fun t => t.id == ev.id.getD "") with
    - | t
  · rw [getTaskWithArtifacts, hfind] at hsome
    simp at hsome
  · refine ⟨⟨?_, ?_, ?_⟩, getTaskWithArtifacts_isSome⟩
    case _ => exact
      { id := t.id, conversation_id := t.conversation_id, status := t.status,
        state_details := hydrateStateDetails t.state_details,
        created_at := t.created_at, updated_at := t.updated_at,
        artifacts := (((reconcile ids now ev st).2.1.task_artifacts.filter
            (fun a => a.task_id == ev.id.getD "")).mergeSort
            (fun a b => decide (a.created_at ≤ b.created_at))).map hydrateArtifact }
    · rw [hev]
      rw [getTaskWithArtifacts, hfind]
    · refine ⟨hydrateArtifact row, ?_, rfl, ?_⟩
      · apply List.mem_map_of_mem
        apply List.mem_mergeSort.mpr
        apply List.mem_filter.mpr
        refine ⟨?_, by simp [htask]⟩
        rw [hta]
        exact hrow
      · simp [hydrateArtifact, hydrateArtifactContent, hbad]

/-- Witness for C9: a store holding one artifact row whose content
`"corrupt"` cannot parse; a concrete reconciliation still broadcasts the
snapshot with that artifact carrying the placeholder. -/
theorem reconcile_broadcasts_despite_decode_error_witness :
    ∃ v, (reconcile [] 3 ⟨some "t1", some "c1", some "working", none, none⟩
        ⟨[], [⟨"x1", "t1", "r0", "corrupt", 0⟩], []⟩).2.2 = [BEvent.taskUpdated v] ∧
      ∃ a ∈ v.artifacts, a.id = "x1" ∧ a.content = artifactContentErrorPlaceholder := by
  have h := reconcile_broadcasts_despite_decode_error [] 3
    ⟨some "t1", some "c1", some "working", none, none⟩
    ⟨[], [⟨"x1", "t1", "r0", "corrupt", 0⟩], []⟩
    ⟨"x1", "t1", "r0", "corrupt", 0⟩
    (by decide) rfl (by simp) rfl rfl
  exact h.1
